import Mathlib

/-!
Verification of the Corallum-Project repository against its specification.

The repository's visible sources are test harnesses (`test_system.py`,
`test_api.py`, `simple_test.py`) and a bootstrap script (`bootstrap.py`);
the orchestration core they exercise (StateManager, ToolRegistry,
PluginManager, Orchestrator) is not part of the visible sources, so that
core is modelled here from the specification's contracts (§3, §4, §8).
The harness and bootstrap code is embedded directly from the sources.
-/

deriving instance DecidableEq for Except

namespace Corallum

/-! ## Task state machine

Modelled from the spec: the StateManager component (§3 Task, §4.1) is not
present under the visible sources; the Task record, its status chain
`pending → planning → executing → {succeeded, failed}` and the operations
`Transition` and `Finalize` are taken from the spec's contract. -/

/-- Task status, spec §3: `pending`, `planning`, `executing`, `succeeded`, `failed`. -/
inductive Status
| pending
| planning
| executing
| succeeded
| failed
deriving DecidableEq, Repr

/-- State-machine misuse errors, spec §7. -/
inductive StateError
| invalidTransition
| alreadyFinalized
| notFound
deriving DecidableEq, Repr

/-- Modelled from the spec: a Task record (spec §3), with the fields the
claims mention; `steps` and timestamps are omitted as no claim involves them. -/
structure Task where
  id : Nat
  prompt : String
  status : Status
  strategy : Option String
  result : Option String
  error : Option String
deriving DecidableEq, Repr

/-- Modelled from the spec: the forward-only transition relation of §3. -/
def validTransition : Status → Status → Bool
| Status.pending, Status.planning => true
| Status.planning, Status.executing => true
| Status.executing, Status.succeeded => true
| Status.executing, Status.failed => true
| _, _ => false

/-- A status is terminal when it is `succeeded` or `failed` (spec §3). -/
def isTerminal : Status → Bool
| Status.succeeded => true
| Status.failed => true
| _ => false

/-- Modelled from the spec: the StateManager's in-memory task store (§4.1). -/
structure StateManager where
  tasks : List (Nat × Task)
  nextId : Nat
deriving DecidableEq, Repr

def findEntry : List (Nat × Task) → Nat → Option Task
| [], _ => none
| (k, t) :: rest, tid => if k = tid then some t else findEntry rest tid

/-- `Get(taskId)` of spec §4.1. -/
def lookupTask (sm : StateManager) (tid : Nat) : Option Task :=
  findEntry sm.tasks tid

def updateEntries : List (Nat × Task) → Nat → (Task → Task) → List (Nat × Task)
| [], _, _ => []
| (k, t) :: rest, tid, f =>
  if k = tid then (k, f t) :: rest else (k, t) :: updateEntries rest tid f

/-- A fresh Task in `pending` with no payload (spec §4.1 `CreateTask`). -/
def newTask (tid : Nat) (prompt : String) : Task :=
  { id := tid, prompt := prompt, status := Status.pending,
    strategy := none, result := none, error := none }

/-- Modelled from the spec: `CreateTask(prompt) → taskId` (§4.1). -/
def CreateTask (sm : StateManager) (prompt : String) : Nat × StateManager :=
  (sm.nextId, ⟨(sm.nextId, newTask sm.nextId prompt) :: sm.tasks, sm.nextId + 1⟩)

/-- Modelled from the spec: `Transition(taskId, newStatus)` validates the
forward-only state machine and fails with `InvalidTransition` otherwise
(§4.1); a failing call leaves the store unchanged. -/
def SMTransition (sm : StateManager) (tid : Nat) (s : Status) :
    Except StateError Unit × StateManager :=
  match lookupTask sm tid with
  | none => (Except.error StateError.notFound, sm)
  | some t =>
    if validTransition t.status s then
      (Except.ok (), ⟨updateEntries sm.tasks tid (fun u => { u with status := s }), sm.nextId⟩)
    else
      (Except.error StateError.invalidTransition, sm)

/-- Terminal payload: a result on success, an error record on failure. -/
inductive Outcome
| result (payload : String)
| failure (e : String)
deriving DecidableEq, Repr

/-- Modelled from the spec: `Finalize(taskId, result|error)` sets terminal
status and payload exactly once; a second call fails with
`AlreadyFinalized` and leaves the store unchanged (§4.1, §8). -/
def SMFinalize (sm : StateManager) (tid : Nat) (o : Outcome) :
    Except StateError Unit × StateManager :=
  match lookupTask sm tid with
  | none => (Except.error StateError.notFound, sm)
  | some t =>
    if isTerminal t.status then
      (Except.error StateError.alreadyFinalized, sm)
    else
      match o with
      | Outcome.result p =>
        (Except.ok (), ⟨updateEntries sm.tasks tid
          (fun u => { u with status := Status.succeeded, result := some p }), sm.nextId⟩)
      | Outcome.failure e =>
        (Except.ok (), ⟨updateEntries sm.tasks tid
          (fun u => { u with status := Status.failed, error := some e }), sm.nextId⟩)

lemma findEntry_update (l : List (Nat × Task)) (tid : Nat) (f : Task → Task) :
    findEntry (updateEntries l tid f) tid = (findEntry l tid).map f := by
  induction l with
  | nil => simp [findEntry, updateEntries]
  | cons hd rest ih =>
    obtain ⟨k, t⟩ := hd
    by_cases hk : k = tid
    · simp [findEntry, updateEntries, hk]
    · simp [findEntry, updateEntries, hk, ih]

/-- Claim C2: `StateManager.Transition` succeeds exactly on a forward edge of
the chain `pending → planning → executing → {succeeded, failed}` and fails
with `InvalidTransition` on any other requested transition; no transition
targets `pending`, so no task re-enters `pending`. -/
theorem C2_transition_forward_only (sm : StateManager) (tid : Nat) (t : Task) (s : Status)
    (h : lookupTask sm tid = some t) :
    (SMTransition sm tid s).1 =
      (if (t.status = Status.pending ∧ s = Status.planning) ∨
          (t.status = Status.planning ∧ s = Status.executing) ∨
          (t.status = Status.executing ∧ (s = Status.succeeded ∨ s = Status.failed))
       then Except.ok () else Except.error StateError.invalidTransition) ∧
    (SMTransition sm tid Status.pending).1 = Except.error StateError.invalidTransition := by
  obtain ⟨tId, tPrompt, st, tStrat, tRes, tErr⟩ := t
  cases st <;> cases s <;> simp_all [SMTransition, validTransition]

/-- A task stuck at `succeeded`, used to exercise `C2_transition_forward_only`
on the `succeeded → executing` edge the claim singles out. -/
def taskS : Task :=
  { id := 0, prompt := "demo", status := Status.succeeded,
    strategy := none, result := some "done", error := none }

def smS : StateManager := ⟨[(0, taskS)], 1⟩

/-- Witness for C2: at the concrete store `smS`, requesting
`succeeded → executing` (and `→ pending`) fails with `InvalidTransition`. -/
theorem C2_transition_forward_only_witness :
    (SMTransition smS 0 Status.executing).1 =
      (if (taskS.status = Status.pending ∧ Status.executing = Status.planning) ∨
          (taskS.status = Status.planning ∧ Status.executing = Status.executing) ∨
          (taskS.status = Status.executing ∧
            (Status.executing = Status.succeeded ∨ Status.executing = Status.failed))
       then Except.ok () else Except.error StateError.invalidTransition) ∧
    (SMTransition smS 0 Status.pending).1 = Except.error StateError.invalidTransition :=
  C2_transition_forward_only smS 0 taskS Status.executing (by decide)

/-- Claim C5: `Finalize` sets the terminal status exactly once. If a first
`Finalize` on a task succeeds, the task is terminal afterwards, a second
`Finalize` on it fails with `AlreadyFinalized`, and the failed second call
leaves the store — and hence the task's `result`/`error` — unchanged. -/
theorem C5_finalize_once (sm sm1 : StateManager) (tid : Nat) (o o' : Outcome)
    (h : SMFinalize sm tid o = (Except.ok (), sm1)) :
    (∃ t1, lookupTask sm1 tid = some t1 ∧ isTerminal t1.status = true) ∧
    (SMFinalize sm1 tid o').1 = Except.error StateError.alreadyFinalized ∧
    (SMFinalize sm1 tid o').2 = sm1 := by
  cases hl : lookupTask sm tid with
  | none => simp [SMFinalize, hl] at h
  | some t =>
    have hl' : findEntry sm.tasks tid = some t := hl
    by_cases ht : isTerminal t.status = true
    · simp [SMFinalize, hl, ht] at h
    · cases o with
      | result p =>
        simp [SMFinalize, hl, ht] at h
        subst h
        have h1 : lookupTask
            ⟨updateEntries sm.tasks tid
              (fun u => { u with status := Status.succeeded, result := some p }), sm.nextId⟩ tid =
            some { t with status := Status.succeeded, result := some p } := by
          simp [lookupTask, findEntry_update, hl']
        refine ⟨⟨_, h1, by simp [isTerminal]⟩, ?_, ?_⟩ <;> simp [SMFinalize, h1, isTerminal]
      | failure e =>
        simp [SMFinalize, hl, ht] at h
        subst h
        have h1 : lookupTask
            ⟨updateEntries sm.tasks tid
              (fun u => { u with status := Status.failed, error := some e }), sm.nextId⟩ tid =
            some { t with status := Status.failed, error := some e } := by
          simp [lookupTask, findEntry_update, hl']
        refine ⟨⟨_, h1, by simp [isTerminal]⟩, ?_, ?_⟩ <;> simp [SMFinalize, h1, isTerminal]

/-- A fresh pending task and the store state after its first `Finalize`,
used to exercise `C5_finalize_once` concretely. -/
def taskP : Task := newTask 0 "demo"

def smP : StateManager := ⟨[(0, taskP)], 1⟩

def smP1 : StateManager :=
  ⟨[(0, { taskP with status := Status.succeeded, result := some "done" })], 1⟩

/-- Witness for C5: finalizing the concrete store `smP` succeeds once and a
second `Finalize` fails with `AlreadyFinalized`, leaving the store unchanged. -/
theorem C5_finalize_once_witness :
    (∃ t1, lookupTask smP1 0 = some t1 ∧ isTerminal t1.status = true) ∧
    (SMFinalize smP1 0 (Outcome.failure "late")).1 =
      Except.error StateError.alreadyFinalized ∧
    (SMFinalize smP1 0 (Outcome.failure "late")).2 = smP1 :=
  C5_finalize_once smP smP1 0 (Outcome.result "done") (Outcome.failure "late") (by decide)

/-! ## Orchestrator

Modelled from the spec: `Orchestrator.Execute` (§4.6) drives
`CreateTask → Transition(planning) → Plan → (on PlanningError,
Finalize(error) and return) → Transition(executing) → Run →
Finalize(result|error)` and returns the finalized Task. The planner and
executor are external collaborators (§4.4, §4.5, §6) and enter the model
as function parameters, matching the injectable-interface design of §9. -/

/-- Modelled from the spec: a plan is a strategy name plus an ordered list
of intended tool invocations (§4.4). -/
structure Plan where
  strategy : String
  steps : List String
deriving DecidableEq, Repr

/-- The orchestrator records the planner's chosen strategy on the task
(spec §3: `strategy` set once during planning). -/
def setStrategy (sm : StateManager) (tid : Nat) (s : String) : StateManager :=
  ⟨updateEntries sm.tasks tid (fun u => { u with strategy := some s }), sm.nextId⟩

/-- Modelled from the spec: `Orchestrator.Execute(prompt)` (§4.6). The
`planner` argument stands for `TaskPlanner.Plan`, the `runPlan` argument
for `TaskExecutor.Run`; each either produces a value or an error payload. -/
def Execute (sm0 : StateManager) (prompt : String)
    (planner : String → Except String Plan)
    (runPlan : Plan → Except String String) : Option Task × StateManager :=
  let c := CreateTask sm0 prompt
  let tid := c.1
  let sm1 := c.2
  let sm2 := (SMTransition sm1 tid Status.planning).2
  match planner prompt with
  | Except.error e =>
    let sm3 := (SMFinalize sm2 tid (Outcome.failure e)).2
    (lookupTask sm3 tid, sm3)
  | Except.ok plan =>
    let sm3 := setStrategy (SMTransition sm2 tid Status.executing).2 tid plan.strategy
    match runPlan plan with
    | Except.ok res =>
      let sm4 := (SMFinalize sm3 tid (Outcome.result res)).2
      (lookupTask sm4 tid, sm4)
    | Except.error e =>
      let sm4 := (SMFinalize sm3 tid (Outcome.failure e)).2
      (lookupTask sm4 tid, sm4)

/-- Claim C1: for every prompt (and every planner and executor outcome),
`Orchestrator.Execute` returns a Task whose status is terminal
(`succeeded` or `failed`), and in that terminal state exactly one of the
Task's `result` and `error` fields is populated; no non-terminal or
unknown outcome reaches the caller. -/
theorem C1_execute_terminal (sm0 : StateManager) (prompt : String)
    (planner : String → Except String Plan)
    (runPlan : Plan → Except String String) :
    ∃ t : Task, (Execute sm0 prompt planner runPlan).1 = some t ∧
      (t.status = Status.succeeded ∨ t.status = Status.failed) ∧
      t.result.isSome = !t.error.isSome := by
  cases hp : planner prompt with
  | error e =>
    refine ⟨{ id := sm0.nextId, prompt := prompt, status := Status.failed,
              strategy := none, result := none, error := some e }, ?_, Or.inr rfl, rfl⟩
    simp [Execute, CreateTask, SMTransition, SMFinalize, lookupTask, findEntry,
      updateEntries, validTransition, isTerminal, newTask, hp]
  | ok plan =>
    cases hr : runPlan plan with
    | ok res =>
      refine ⟨{ id := sm0.nextId, prompt := prompt, status := Status.succeeded,
                strategy := some plan.strategy, result := some res, error := none },
              ?_, Or.inl rfl, rfl⟩
      simp [Execute, CreateTask, SMTransition, SMFinalize, lookupTask, findEntry,
        updateEntries, validTransition, isTerminal, newTask, setStrategy, hp, hr]
    | error e =>
      refine ⟨{ id := sm0.nextId, prompt := prompt, status := Status.failed,
                strategy := some plan.strategy, result := none, error := some e },
              ?_, Or.inr rfl, rfl⟩
      simp [Execute, CreateTask, SMTransition, SMFinalize, lookupTask, findEntry,
        updateEntries, validTransition, isTerminal, newTask, setStrategy, hp, hr]

/-! ## ToolRegistry

Modelled from the spec: the ToolRegistry component (§3 ToolDescriptor,
§4.2) is not present under the visible sources; descriptors, `Register`
(validate name non-empty and `invoke` present, overwrite same name),
`Lookup`, `ListByCapability` (registration order) and
`Unregister`/`UnregisterAll` are taken from the spec's contract. -/

/-- Modelled from the spec: a registered capability (§3). The `invoke`
callable is modelled as an optional entry-point identifier, so that
"`invoke` present" is expressible. -/
structure ToolDescriptor where
  name : String
  capabilities : List String
  inputSchema : String
  invoke : Option String
deriving DecidableEq, Repr

/-- Registry-layer errors (§4.2, §7). -/
inductive RegError
| invalidDescriptor
| toolNotFound
deriving DecidableEq, Repr

/-- The registry keeps descriptors in registration order (§4.2). -/
structure ToolRegistry where
  tools : List ToolDescriptor
deriving DecidableEq, Repr

def containsName (l : List ToolDescriptor) (n : String) : Bool :=
  l.any (fun t => t.name == n)

/-- Replace the first descriptor bearing `d.name` by `d`, keeping its slot. -/
def replaceTool : List ToolDescriptor → ToolDescriptor → List ToolDescriptor
| [], d => [d]
| t :: rest, d => if t.name == d.name then d :: rest else t :: replaceTool rest d

/-- Modelled from the spec: `Register(descriptor)` validates `name`
non-empty and `invoke` present, and overwrites any existing descriptor of
the same name (last writer wins, §4.2, §3). -/
def Register (r : ToolRegistry) (d : ToolDescriptor) : Except RegError ToolRegistry :=
  if d.name = "" ∨ d.invoke = none then Except.error RegError.invalidDescriptor
  else if containsName r.tools d.name then Except.ok ⟨replaceTool r.tools d⟩
  else Except.ok ⟨r.tools ++ [d]⟩

/-- Modelled from the spec: `Lookup(name)` (§4.2). -/
def Lookup (r : ToolRegistry) (n : String) : Option ToolDescriptor :=
  r.tools.find? (fun t => t.name == n)

/-- Modelled from the spec: `ListByCapability(tag)` in registration order (§4.2). -/
def ListByCapability (r : ToolRegistry) (tag : String) : List ToolDescriptor :=
  r.tools.filter (fun t => t.capabilities.contains tag)

/-- Modelled from the spec: `Unregister(name)` (§4.2). -/
def Unregister (r : ToolRegistry) (n : String) : ToolRegistry :=
  ⟨r.tools.filter (fun t => ¬ t.name == n)⟩

/-- Modelled from the spec: `UnregisterAll(names)` (§4.2). -/
def UnregisterAll (r : ToolRegistry) (ns : List String) : ToolRegistry :=
  ns.foldl Unregister r

lemma find?_replaceTool (l : List ToolDescriptor) (d : ToolDescriptor) :
    (replaceTool l d).find? (fun t => t.name == d.name) = some d := by
  induction l with
  | nil => simp [replaceTool, List.find?]
  | cons hd rest ih =>
    by_cases hn : hd.name = d.name
    · simp [replaceTool, hn, List.find?]
    · simp [replaceTool, hn, List.find?, ih]

lemma find?_append_fresh (l : List ToolDescriptor) (d : ToolDescriptor)
    (h : containsName l d.name = false) :
    (l ++ [d]).find? (fun t => t.name == d.name) = some d := by
  induction l with
  | nil => simp [List.find?]
  | cons hd rest ih =>
    simp [containsName] at h
    have hb : (hd.name == d.name) = false := by simp [h.1]
    have hnone : rest.find? (fun t => t.name == d.name) = none := by
      rw [List.find?_eq_none]
      intro x hx
      simp [h.2 x hx]
    simp [List.find?, hb, hnone]

/-- After a successful `Register`, `Lookup` of the descriptor's name
returns exactly the registered descriptor. -/
lemma Register_lookup (r r1 : ToolRegistry) (d : ToolDescriptor)
    (h : Register r d = Except.ok r1) : Lookup r1 d.name = some d := by
  by_cases hv : d.name = "" ∨ d.invoke = none
  · simp [Register, hv] at h
  · cases hc : containsName r.tools d.name with
    | true =>
      simp [Register, hv, hc] at h
      rw [← h]
      simpa [Lookup] using find?_replaceTool r.tools d
    | false =>
      simp [Register, hv, hc] at h
      rw [← h]
      simpa [Lookup] using find?_append_fresh r.tools d hc

lemma replaceTool_counts (l : List ToolDescriptor) (d d' : ToolDescriptor)
    (hn : d'.name = d.name)
    (hfind : l.find? (fun t => t.name == d.name) = some d) :
    (replaceTool l d').length = l.length ∧
    ∀ p : ToolDescriptor → Bool, p d' = p d →
      ((replaceTool l d').filter p).length = (l.filter p).length := by
  induction l with
  | nil => simp [List.find?] at hfind
  | cons hd rest ih =>
    by_cases hh : hd.name = d.name
    · have hd_eq : hd = d := by
        simp [List.find?, hh] at hfind
        exact hfind
      subst hd_eq
      constructor
      · simp [replaceTool, hn]
      · intro p hp
        simp [replaceTool, hn, List.filter]
        cases hpv : p hd <;> simp [hp, hpv, hh]
    · have hb : (hd.name == d.name) = false := by simp [hh]
      have hfind' : rest.find? (fun t => t.name == d.name) = some d := by
        simpa [List.find?, hb] using hfind
      obtain ⟨ihl, ihf⟩ := ih hfind'
      constructor
      · simp [replaceTool, hn, hh, ihl]
      · intro p hp
        cases hpv : p hd <;>
          simp [replaceTool, hn, hh, List.filter, hpv, ihf p hp]

lemma lookup_containsName (r : ToolRegistry) (n : String) (d : ToolDescriptor)
    (h : Lookup r n = some d) : containsName r.tools n = true := by
  have hm := List.find?_some h
  have hmem := List.mem_of_find?_eq_some h
  simp [containsName]
  exact ⟨d, hmem, by simpa using hm⟩

/-- Counterexample to claim C4 as stated: re-registering the name `t` with a
descriptor that has a different capability set changes the number of
descriptors `ListByCapability` returns for the tag `a` (1 before, 0
after), even though the registration did replace rather than add. -/
def regA : ToolDescriptor :=
  { name := "t", capabilities := ["a"], inputSchema := "s", invoke := some "f" }

def regA2 : ToolDescriptor :=
  { name := "t", capabilities := [], inputSchema := "s", invoke := some "f" }

/-- A replacement for `regA` with the same name and the same capability set. -/
def regB : ToolDescriptor :=
  { name := "t", capabilities := ["a"], inputSchema := "s2", invoke := some "g" }

theorem C4_counterexample :
    Register (ToolRegistry.mk []) regA = Except.ok (ToolRegistry.mk [regA]) ∧
    Register (ToolRegistry.mk [regA]) regA2 = Except.ok (ToolRegistry.mk [regA2]) ∧
    (ListByCapability (ToolRegistry.mk [regA]) "a").length = 1 ∧
    (ListByCapability (ToolRegistry.mk [regA2]) "a").length = 0 ∧
    (ListByCapability (ToolRegistry.mk [regA2]) "a").length ≠
      (ListByCapability (ToolRegistry.mk [regA]) "a").length := by
  decide

/-- Claim C4 (amended): `Register(d)` followed by `Lookup(d.name)` returns
`d`; registering a second descriptor `d'` under the same name replaces the
first (last writer wins) rather than adding an entry, so the total number
of registry entries is unchanged, and when `d'` carries the same
capability set as `d` the number of descriptors returned by
`ListByCapability` is unchanged for every tag. -/
theorem C4_register_replace (r r1 r2 : ToolRegistry) (d d' : ToolDescriptor) (tag : String)
    (hname : d'.name = d.name) (hcap : d'.capabilities = d.capabilities)
    (h1 : Register r d = Except.ok r1) (h2 : Register r1 d' = Except.ok r2) :
    Lookup r1 d.name = some d ∧ Lookup r2 d.name = some d' ∧
    r2.tools.length = r1.tools.length ∧
    (ListByCapability r2 tag).length = (ListByCapability r1 tag).length := by
  have hL1 : Lookup r1 d.name = some d := Register_lookup r r1 d h1
  have hc : containsName r1.tools d'.name = true := by
    rw [hname]
    exact lookup_containsName r1 d.name d hL1
  have hv : ¬ (d'.name = "" ∨ d'.invoke = none) := by
    intro hv
    simp [Register, hv] at h2
  simp [Register, hv, hc] at h2
  have hfind : r1.tools.find? (fun t => t.name == d'.name) = some d := by
    rw [hname]
    simpa [Lookup] using hL1
  have hcounts := replaceTool_counts r1.tools d d' hname (by rw [← hname]; exact hfind)
  refine ⟨hL1, ?_, ?_, ?_⟩
  · rw [← h2]
    rw [← hname]
    simpa [Lookup] using find?_replaceTool r1.tools d'
  · rw [← h2]
    exact hcounts.1
  · rw [← h2]
    simpa [ListByCapability] using
      hcounts.2 (fun t => t.capabilities.contains tag) (by simp [hcap])

/-- Witness for the amended C4 at concrete registries: registering `regA`
into an empty registry and then re-registering `regB` (same name, same
capabilities) keeps the lookup result current and all counts unchanged. -/
theorem C4_register_replace_witness :
    Lookup (ToolRegistry.mk [regA]) regA.name = some regA ∧
    Lookup (ToolRegistry.mk [regB]) regA.name = some regB ∧
    (ToolRegistry.mk [regB]).tools.length = (ToolRegistry.mk [regA]).tools.length ∧
    (ListByCapability (ToolRegistry.mk [regB]) "a").length =
      (ListByCapability (ToolRegistry.mk [regA]) "a").length :=
  C4_register_replace (ToolRegistry.mk []) (ToolRegistry.mk [regA]) (ToolRegistry.mk [regB])
    regA regB "a" (by decide) (by decide) (by decide) (by decide)

/-! ## PluginManager

Modelled from the spec: the PluginManager component (§3 Plugin, §4.3) is
not present under the visible sources; `Load` registers each declared tool
in order, and on the first registration failure rolls back the names
registered so far via `UnregisterAll` and marks the plugin `failed` with
the triggering error retained. -/

/-- Plugin status, spec §3: `discovered`, `loaded`, `failed`. -/
inductive PluginStatus
| discovered
| loaded
| failed
deriving DecidableEq, Repr

/-- Modelled from the spec: a Plugin record (§3), with the triggering load
error retained for inspection (§4.3). -/
structure Plugin where
  id : String
  status : PluginStatus
  providedTools : List ToolDescriptor
  loadError : Option RegError
deriving DecidableEq, Repr

/-- Register a plugin's declared tools in order; on the first failing
registration return the error together with the registry state reached and
the names registered so far. -/
def loadTools : ToolRegistry → List String → List ToolDescriptor →
    Except (RegError × ToolRegistry × List String) (ToolRegistry × List String)
| r, regd, [] => Except.ok (r, regd)
| r, regd, d :: rest =>
  match Register r d with
  | Except.ok r1 => loadTools r1 (regd ++ [d.name]) rest
  | Except.error e => Except.error (e, r, regd)

/-- Modelled from the spec: `Load(pluginId)` (§4.3) — all-or-nothing: the
plugin becomes `loaded` only if every declared tool registers; otherwise
the tools registered so far are rolled back via `UnregisterAll` and the
plugin is marked `failed` with the triggering error retained. -/
def Load (r : ToolRegistry) (p : Plugin) : ToolRegistry × Plugin :=
  match loadTools r [] p.providedTools with
  | Except.ok (r1, _) => (r1, { p with status := PluginStatus.loaded, loadError := none })
  | Except.error (e, r1, regd) =>
    (UnregisterAll r1 regd, { p with status := PluginStatus.failed, loadError := some e })

lemma mem_replaceTool (l : List ToolDescriptor) (d x : ToolDescriptor)
    (h : x ∈ replaceTool l d) : x ∈ l ∨ x = d := by
  induction l with
  | nil =>
    simp [replaceTool] at h
    exact Or.inr h
  | cons hd rest ih =>
    by_cases hn : hd.name = d.name
    · have hb : (hd.name == d.name) = true := by simp [hn]
      simp [replaceTool, hb] at h
      rcases h with h | h
      · exact Or.inr h
      · exact Or.inl (List.mem_cons_of_mem hd h)
    · have hb : (hd.name == d.name) = false := by simp [hn]
      simp [replaceTool, hb] at h
      rcases h with h | h
      · exact Or.inl (by simp [h])
      · rcases ih h with h' | h'
        · exact Or.inl (List.mem_cons_of_mem hd h')
        · exact Or.inr h'

lemma mem_register (r r1 : ToolRegistry) (d x : ToolDescriptor)
    (h : Register r d = Except.ok r1) (hx : x ∈ r1.tools) : x ∈ r.tools ∨ x = d := by
  by_cases hv : d.name = "" ∨ d.invoke = none
  · simp [Register, hv] at h
  · cases hc : containsName r.tools d.name with
    | true =>
      simp [Register, hv, hc] at h
      rw [← h] at hx
      exact mem_replaceTool r.tools d x hx
    | false =>
      simp [Register, hv, hc] at h
      rw [← h] at hx
      simpa using hx

/-- Invariant of `loadTools` on the failing path: every descriptor in the
registry state at the failure is either a pre-existing one or bears a name
recorded as registered so far, and the recorded names only grow. -/
lemma loadTools_err_mem (ds : List ToolDescriptor) :
    ∀ (r : ToolRegistry) (regd : List String) (e : RegError)
      (rE : ToolRegistry) (regdE : List String),
      loadTools r regd ds = Except.error (e, rE, regdE) →
      (∀ x ∈ rE.tools, x ∈ r.tools ∨ x.name ∈ regdE) ∧
      (∀ n ∈ regd, n ∈ regdE) := by
  induction ds with
  | nil => intro r regd e rE regdE h; simp [loadTools] at h
  | cons d rest ih =>
    intro r regd e rE regdE h
    cases hreg : Register r d with
    | ok r1 =>
      rw [loadTools, hreg] at h
      obtain ⟨ihm, ihs⟩ := ih r1 (regd ++ [d.name]) e rE regdE h
      constructor
      · intro x hx
        rcases ihm x hx with hx' | hx'
        · rcases mem_register r r1 d x hreg hx' with hx'' | hx''
          · exact Or.inl hx''
          · exact Or.inr (by rw [hx'']; exact ihs d.name (by simp))
        · exact Or.inr hx'
      · intro n hn
        exact ihs n (by simp [hn])
    | error e1 =>
      rw [loadTools, hreg] at h
      simp at h
      obtain ⟨he, hr, hregd⟩ := h
      subst hr; subst hregd
      exact ⟨fun x hx => Or.inl hx, fun n hn => hn⟩

/-- A descriptor is valid for registration when its name is non-empty and
its `invoke` callable is present (§4.2). -/
def validDescr (d : ToolDescriptor) : Bool :=
  ¬ d.name = "" && d.invoke.isSome

lemma register_ok_of_valid (r : ToolRegistry) (d : ToolDescriptor)
    (h : validDescr d = true) : ∃ r1, Register r d = Except.ok r1 := by
  have hv : ¬ (d.name = "" ∨ d.invoke = none) := by
    simp [validDescr, Option.isSome_iff_ne_none] at h
    simp [h.1, h.2]
  cases hc : containsName r.tools d.name with
  | true => exact ⟨⟨replaceTool r.tools d⟩, by simp [Register, hv, hc]⟩
  | false => exact ⟨⟨r.tools ++ [d]⟩, by simp [Register, hv, hc]⟩

lemma loadTools_fails (ds : List ToolDescriptor) :
    ∀ (r : ToolRegistry) (regd : List String),
      (∃ d ∈ ds, validDescr d = false) →
      ∃ e rE regdE, loadTools r regd ds = Except.error (e, rE, regdE) := by
  induction ds with
  | nil => intro r regd h; simp at h
  | cons d rest ih =>
    intro r regd h
    cases hd : validDescr d with
    | false =>
      have hv : d.name = "" ∨ d.invoke = none := by
        simp [validDescr, Option.isSome_iff_ne_none] at hd
        by_cases hn : d.name = ""
        · exact Or.inl hn
        · exact Or.inr (hd hn)
      exact ⟨RegError.invalidDescriptor, r, regd, by
        rw [loadTools]
        simp [Register, hv]⟩
    | true =>
      obtain ⟨r1, hr1⟩ := register_ok_of_valid r d hd
      have hrest : ∃ d' ∈ rest, validDescr d' = false := by
        rcases h with ⟨d', hd', hbad⟩
        rcases List.mem_cons.mp hd' with h' | h'
        · subst h'; rw [hd] at hbad; exact absurd hbad (by simp)
        · exact ⟨d', h', hbad⟩
      obtain ⟨e, rE, regdE, hrec⟩ := ih r1 (regd ++ [d.name]) hrest
      exact ⟨e, rE, regdE, by rw [loadTools, hr1]; exact hrec⟩

lemma mem_unregister (r : ToolRegistry) (n : String) (x : ToolDescriptor)
    (h : x ∈ (Unregister r n).tools) : x ∈ r.tools ∧ ¬ x.name = n := by
  simp [Unregister, List.mem_filter] at h
  exact h

lemma mem_unregisterAll (ns : List String) :
    ∀ (r : ToolRegistry) (x : ToolDescriptor),
      x ∈ (UnregisterAll r ns).tools → x ∈ r.tools ∧ ∀ n ∈ ns, ¬ x.name = n := by
  induction ns with
  | nil => intro r x h; simpa [UnregisterAll] using h
  | cons n rest ih =>
    intro r x h
    have h' := ih (Unregister r n) x (by simpa [UnregisterAll] using h)
    obtain ⟨hmem, hne⟩ := mem_unregister r n x h'.1
    refine ⟨hmem, ?_⟩
    intro m hm
    rcases List.mem_cons.mp hm with hm' | hm'
    · subst hm'; exact hne
    · exact h'.2 m hm'

lemma lookup_eq_none_iff (r : ToolRegistry) (n : String) :
    Lookup r n = none ↔ ∀ x ∈ r.tools, ¬ x.name = n := by
  simp [Lookup, List.find?_eq_none]

/-- Claim C3: if `PluginManager.Load` fails while registering any of the
plugin's declared tools, then — provided none of the plugin's tool names
was already present in the registry (the ownership invariant of §3) — the
resulting registry contains zero tools from that plugin: every name
registered so far has been rolled back via `UnregisterAll`, the plugin is
marked `failed`, and the triggering error is retained. -/
theorem C3_load_rollback (r : ToolRegistry) (p : Plugin)
    (hfresh : ∀ d ∈ p.providedTools, Lookup r d.name = none)
    (hbad : ∃ d ∈ p.providedTools, validDescr d = false) :
    (Load r p).2.status = PluginStatus.failed ∧
    (Load r p).2.loadError.isSome = true ∧
    ∀ d ∈ p.providedTools, Lookup (Load r p).1 d.name = none := by
  obtain ⟨e, rE, regdE, herr⟩ := loadTools_fails p.providedTools r [] hbad
  obtain ⟨hmem, _⟩ := loadTools_err_mem p.providedTools r [] e rE regdE herr
  refine ⟨by simp [Load, herr], by simp [Load, herr], ?_⟩
  intro d hd
  simp only [Load, herr]
  rw [lookup_eq_none_iff]
  intro x hx
  obtain ⟨hxE, hxn⟩ := mem_unregisterAll regdE rE x hx
  rcases hmem x hxE with hx' | hx'
  · exact (lookup_eq_none_iff r d.name).mp (hfresh d hd) x hx'
  · exact absurd rfl (hxn x.name hx')

/-- A concrete plugin whose second declared tool fails registration (its
name is empty), used to exercise `C3_load_rollback`. -/
def toolGood : ToolDescriptor :=
  { name := "t1", capabilities := ["fs"], inputSchema := "s", invoke := some "f1" }

def toolBad : ToolDescriptor :=
  { name := "", capabilities := ["fs"], inputSchema := "s", invoke := some "f2" }

def pluginBad : Plugin :=
  { id := "p1", status := PluginStatus.discovered,
    providedTools := [toolGood, toolBad], loadError := none }

/-- Witness for C3: loading `pluginBad` into the empty registry fails on
its second tool, leaves none of its tools registered, and retains the
triggering error. -/
theorem C3_load_rollback_witness :
    (Load (ToolRegistry.mk []) pluginBad).2.status = PluginStatus.failed ∧
    (Load (ToolRegistry.mk []) pluginBad).2.loadError.isSome = true ∧
    ∀ d ∈ pluginBad.providedTools,
      Lookup (Load (ToolRegistry.mk []) pluginBad).1 d.name = none :=
  C3_load_rollback (ToolRegistry.mk []) pluginBad (by decide) (by decide)

/-! ## Harness embeddings

The following definitions are embedded directly from the repository's
visible sources: `src/test_system.py`, `src/test_api.py`,
`src/bootstrap.py` and `src/simple_test.py`. -/

/-- A Python value as the harness manipulates it: `None`, a string, or a
boolean (`src/test_system.py` result dictionaries). -/
inductive PyVal
| pyNone
| pyStr (s : String)
| pyBool (b : Bool)
deriving DecidableEq, Repr

/-- Python's `dict.get(key, default)`: the value under the first matching
key, or the default when the key is absent. -/
def dictGet (d : List (String × PyVal)) (k : String) (dflt : PyVal) : PyVal :=
  match d with
  | [] => dflt
  | (k1, v) :: rest => if k1 = k then v else dictGet rest k dflt

/-- Embedded from `src/test_system.py`, `test_backend` line 72: the success
report is `result.get('error') is None`. -/
def backendSuccess (result : List (String × PyVal)) : Bool :=
  dictGet result "error" PyVal.pyNone == PyVal.pyNone

/-- Embedded from `src/test_system.py`, `test_backend` line 71: the
reported strategy is `result.get('strategy', 'unknown')`. -/
def backendStrategy (result : List (String × PyVal)) : PyVal :=
  dictGet result "strategy" (PyVal.pyStr "unknown")

lemma dictGet_lookup (d : List (String × PyVal)) (k : String) (dflt : PyVal) :
    dictGet d k dflt = (d.lookup k).getD dflt := by
  induction d with
  | nil => simp [dictGet, List.lookup]
  | cons hd rest ih =>
    obtain ⟨k1, v⟩ := hd
    by_cases hk : k1 = k
    · have hb : (k == k1) = true := by simp [hk]
      simp [dictGet, List.lookup, hk, hb]
    · have hb : (k == k1) = false := beq_eq_false_iff_ne.mpr (fun h => hk h.symm)
      simp [dictGet, List.lookup, hk, hb, ih]

/-- Claim C6: in `test_backend` the reported success is true exactly when
the orchestrator result's `error` entry is absent or `None`, and the
reported strategy is the result's `strategy` entry, defaulting to
`"unknown"` when absent. -/
theorem C6_backend_report (result : List (String × PyVal)) :
    (backendSuccess result = true ↔
      (result.lookup "error" = none ∨ result.lookup "error" = some PyVal.pyNone)) ∧
    backendStrategy result = (result.lookup "strategy").getD (PyVal.pyStr "unknown") := by
  constructor
  · rw [backendSuccess, dictGet_lookup]
    cases hl : result.lookup "error" with
    | none => simp
    | some v => simp
  · rw [backendStrategy, dictGet_lookup]

/-- The response object the mock builds (`class Response: content = ...`). -/
structure LLMResponse where
  content : String
deriving DecidableEq, Repr

/-- Embedded from `src/test_system.py` lines 32-38 and 200-206:
`MockLLM.ainvoke(messages)` returns a response whose `content` is the
fixed string `"Test response"`, ignoring its input. -/
def MockLLM_ainvoke (_messages : List String) : LLMResponse :=
  { content := "Test response" }

/-- Claim C7: the mock language-model client is a deterministic test
double — for every input and across any two calls, `MockLLM.ainvoke`
returns a response whose content is the fixed string `"Test response"`. -/
theorem C7_mock_llm_deterministic (m1 m2 : List String) :
    (MockLLM_ainvoke m1).content = "Test response" ∧
    MockLLM_ainvoke m1 = MockLLM_ainvoke m2 :=
  ⟨rfl, rfl⟩

/-- Outcome of `response.json()` in `test_health`: a parsed body or a
`json.JSONDecodeError`. -/
inductive JsonOutcome
| parsed (body : String)
| decodeFailure
deriving DecidableEq, Repr

/-- Outcome of the GET request in `test_health`: a response with a status
code and a JSON-parse outcome, a `requests.exceptions.RequestException`,
or any other exception (caught by the generic `except Exception`). -/
inductive GetOutcome
| response (statusCode : Nat) (json : JsonOutcome)
| requestFailure (msg : String)
| otherFailure (msg : String)
deriving DecidableEq, Repr

/-- Embedded from `src/test_api.py` lines 6-22: `test_health` returns
`response.status_code == 200` when the request completes and the body
parses as JSON, and returns `False` on a JSON decode error, a request
exception, or any other exception. -/
def test_health (o : GetOutcome) : Bool :=
  match o with
  | GetOutcome.response code j =>
    match j with
    | JsonOutcome.parsed _ => code == 200
    | JsonOutcome.decodeFailure => false
  | GetOutcome.requestFailure _ => false
  | GetOutcome.otherFailure _ => false

/-- Claim C8: `test_health` always returns a boolean (it is a total
function on the outcome of the request) and returns `True` exactly when
the GET request completes, the body parses as JSON, and the status code is
200; every failure path returns `False`. -/
theorem C8_test_health_iff (o : GetOutcome) :
    test_health o = true ↔
      ∃ body, o = GetOutcome.response 200 (JsonOutcome.parsed body) := by
  cases o with
  | response code j =>
    cases j with
    | parsed body => simp [test_health]
    | decodeFailure => simp [test_health]
  | requestFailure m => simp [test_health]
  | otherFailure m => simp [test_health]

/-- A required Docker image: tag and build context
(`REQUIRED_IMAGES` in `src/bootstrap.py`). -/
structure ImageSpec where
  name : String
  buildContext : String
deriving DecidableEq, Repr

/-- Embedded from `src/bootstrap.py` lines 10-13. -/
def REQUIRED_IMAGES : List ImageSpec :=
  [⟨"jarilo-agent:latest", "jarilo-ecosystem/brain/src/agents/image"⟩,
   ⟨"jarilo-sandbox:latest", "jarilo-ecosystem/brain/src/security/sandbox"⟩]

/-- The environment `ensure_docker_images` runs against: whether
`docker.from_env()` succeeds, the tags of the existing images, whether a
Dockerfile exists under a build context, and whether a build succeeds
(`False` standing for `docker.errors.BuildError`). -/
structure DockerEnv where
  clientOk : Bool
  existingTags : List String
  dockerfileExists : String → Bool
  buildSucceeds : String → Bool

/-- What the loop body of `ensure_docker_images` does for one image. -/
inductive DockerAction
| skippedExisting (image : String)
| missingDockerfile (image : String)
| built (image : String)
| buildFailed (image : String)
deriving DecidableEq, Repr

/-- Embedded from `src/bootstrap.py` lines 25-46, the loop body: skip an
image whose tag already exists; `continue` when its Dockerfile is missing;
otherwise build, catching `BuildError`. -/
def processImage (env : DockerEnv) (spec : ImageSpec) : DockerAction :=
  if env.existingTags.contains spec.name then DockerAction.skippedExisting spec.name
  else if env.dockerfileExists spec.buildContext then
    (if env.buildSucceeds spec.name then DockerAction.built spec.name
     else DockerAction.buildFailed spec.name)
  else DockerAction.missingDockerfile spec.name

/-- Embedded from `src/bootstrap.py` lines 14-46: return immediately when
the Docker client cannot be created, otherwise process every required
image in order; no outcome of one image aborts the loop. -/
def ensure_docker_images (env : DockerEnv) : List DockerAction :=
  if env.clientOk then REQUIRED_IMAGES.map (processImage env) else []

lemma processImage_build_absent (env : DockerEnv) (spec : ImageSpec) (img : String)
    (h : processImage env spec = DockerAction.built img ∨
         processImage env spec = DockerAction.buildFailed img) :
    env.existingTags.contains img = false := by
  by_cases hc : spec.name ∈ env.existingTags
  · rcases h with h | h <;> simp [processImage, hc] at h
  · have himg : spec.name = img := by
      by_cases hdf : env.dockerfileExists spec.buildContext = true
      · by_cases hb : env.buildSucceeds spec.name = true
        · rcases h with h | h <;> simp [processImage, hc, hdf, hb] at h
          exact h
        · rcases h with h | h <;> simp [processImage, hc, hdf, hb] at h
          exact h
      · rcases h with h | h <;> simp [processImage, hc, hdf] at h
    rw [← himg]
    simpa using hc

/-- Claim C9: `ensure_docker_images` returns without attempting any build
when the Docker client cannot be created; when the client is available it
processes every required image (a missing Dockerfile or a failed build for
one image does not stop the loop); and it attempts a build for an image
only if that image's tag is absent from the existing image tags. -/
theorem C9_ensure_docker_images (env : DockerEnv) :
    (env.clientOk = false → ensure_docker_images env = []) ∧
    (ensure_docker_images env).length =
      (if env.clientOk then REQUIRED_IMAGES.length else 0) ∧
    ∀ img, (DockerAction.built img ∈ ensure_docker_images env ∨
            DockerAction.buildFailed img ∈ ensure_docker_images env) →
      env.existingTags.contains img = false := by
  obtain ⟨c, tags, dfe, bs⟩ := env
  cases c with
  | false =>
    refine ⟨fun _ => rfl, by simp [ensure_docker_images], ?_⟩
    intro img h
    rcases h with h | h <;> simp [ensure_docker_images] at h
  | true =>
    refine ⟨fun h => by simp at h, by simp [ensure_docker_images], ?_⟩
    intro img h
    rcases h with h | h
    · have h2 : DockerAction.built img ∈
          REQUIRED_IMAGES.map (processImage ⟨true, tags, dfe, bs⟩) := h
      rcases List.mem_map.mp h2 with ⟨spec, hspec, heq⟩
      exact processImage_build_absent ⟨true, tags, dfe, bs⟩ spec img (Or.inl heq)
    · have h2 : DockerAction.buildFailed img ∈
          REQUIRED_IMAGES.map (processImage ⟨true, tags, dfe, bs⟩) := h
      rcases List.mem_map.mp h2 with ⟨spec, hspec, heq⟩
      exact processImage_build_absent ⟨true, tags, dfe, bs⟩ spec img (Or.inr heq)

/-- An environment without a reachable Docker daemon, to exercise
`C9_ensure_docker_images`. -/
def envNoDocker : DockerEnv :=
  { clientOk := false, existingTags := [],
    dockerfileExists := fun _ => false, buildSucceeds := fun _ => false }

/-- Witness for C9: with no Docker client available, no build is attempted. -/
theorem C9_ensure_docker_images_witness : ensure_docker_images envNoDocker = [] :=
  (C9_ensure_docker_images envNoDocker).1 rfl

/-- Outcome of one check in `simple_test.py`'s `main`: it returns a boolean
or raises an exception. -/
inductive CheckOutcome
| returns (b : Bool)
| raises (msg : String)
deriving DecidableEq, Repr

/-- Embedded from `src/simple_test.py` lines 184-189: a check's recorded
result is its return value; a check that raises is recorded as `False` and
the loop continues with the remaining checks. -/
def recordResult : CheckOutcome → Bool
| CheckOutcome.returns b => b
| CheckOutcome.raises _ => false

/-- The five recorded results of `main`'s checks, in order
(`src/simple_test.py` lines 172-189). -/
def simple_test_results (o1 o2 o3 o4 o5 : CheckOutcome) : List Bool :=
  [recordResult o1, recordResult o2, recordResult o3, recordResult o4, recordResult o5]

/-- Embedded from `src/simple_test.py` lines 196-216: `passed` counts the
true results and `main` returns `passed >= 4`. -/
def simple_test_main (o1 o2 o3 o4 o5 : CheckOutcome) : Bool :=
  decide (4 ≤ (simple_test_results o1 o2 o3 o4 o5).count true)

/-- Embedded from `src/simple_test.py` lines 219-220:
`sys.exit(0 if success else 1)`. -/
def simple_test_exit (o1 o2 o3 o4 o5 : CheckOutcome) : Nat :=
  if simple_test_main o1 o2 o3 o4 o5 then 0 else 1

/-- Claim C10: `main` returns `True`, and the process exits with status 0,
exactly when at least 4 of its 5 checks have a true recorded result; all 5
checks are recorded, and a check that raises is recorded as failed without
aborting the remaining checks. -/
theorem C10_simple_test_main (o1 o2 o3 o4 o5 : CheckOutcome) :
    (simple_test_main o1 o2 o3 o4 o5 = true ↔
      4 ≤ ([o1, o2, o3, o4, o5].map recordResult).count true) ∧
    (simple_test_exit o1 o2 o3 o4 o5 = 0 ↔ simple_test_main o1 o2 o3 o4 o5 = true) ∧
    ([o1, o2, o3, o4, o5].map recordResult).length = 5 ∧
    ∀ msg, recordResult (CheckOutcome.raises msg) = false := by
  refine ⟨?_, ?_, by simp, fun msg => rfl⟩
  · simp [simple_test_main, simple_test_results]
  · cases hm : simple_test_main o1 o2 o3 o4 o5 <;> simp [simple_test_exit, hm]

end Corallum
